import Mathlib

/-!
Shallow embedding of the McOrder Dash per-player order-fulfillment state
machine (src/classes/GameManager.ts together with src/gameConfig.ts, and the
session-registry and command code in src/index.ts).  JavaScript numbers that
only ever hold small non-negative integers are modelled as `Nat`; `lives`,
which is decremented, is modelled as `Int`; 3D positions are modelled over `ℚ`
(the source compares `Math.sqrt d < r`, which for non-negative `d` is
equivalent to `d < r ^ 2`, so distances are kept squared).  `setTimeout` /
`clearTimeout` are modelled by a per-session list of pending timer ids plus a
fresh-id counter.
-/

namespace McOrder

/-! ### Configuration (src/gameConfig.ts) -/

def ITEM_COLLECTION_DISTANCE : ℚ := 5
/-- The vertical pickup tolerance, the literal `5.0` at GameManager.ts:93. -/
def VERTICAL_TOLERANCE : ℚ := 5
def ITEMS_PER_ORDER : Nat := 5
def SCORE_PER_ITEM : Nat := 10
def SCORE_PER_ORDER : Nat := 100

/-- `Object.keys(GAME_CONFIG.ITEM_TYPES)`, in declaration order. -/
def allItemCodes : List String := ["B", "F", "N", "D", "I"]

/-- `GAME_CONFIG.ORDERS`. -/
def ORDERS : List (List String) :=
  [["B", "F"], ["B", "F", "D"], ["N", "I"], ["F", "D", "B", "N"], ["I", "B"]]

/-! ### Data model (src/classes/types.ts and the hytopia Entity handles) -/

structure Vec3 where
  x : ℚ
  y : ℚ
  z : ℚ
deriving DecidableEq, Repr

/-- A spawned food-item entity handle: its entity id, the item code parsed
from its `item-<code>-...` name, and its liveness flag. -/
structure FoodItem where
  id : Nat
  code : String
  isSpawned : Bool
deriving DecidableEq, Repr

structure PlayerGameState where
  score : Nat
  lives : Int
  currentOrder : List String
  orderProgress : Nat
  orderCount : Nat
  isGameOver : Bool
  worldItems : List FoodItem
  orderTimer : Option Nat
  nearbyItemsNotified : List Nat
  /-- Model of the host scheduler: order-expiry timeouts that are armed and
  have neither fired nor been cancelled. -/
  pendingTimers : List Nat
  nextTimerId : Nat
  nextItemId : Nat
deriving DecidableEq, Repr

/-- `GameManager.initGameState` (GameManager.ts:106). -/
def initGameState : PlayerGameState :=
  { score := 0
    lives := 3
    currentOrder := []
    orderProgress := 0
    orderCount := 0
    isGameOver := false
    worldItems := []
    orderTimer := none
    nearbyItemsNotified := []
    pendingTimers := []
    nextTimerId := 0
    nextItemId := 0 }

/-! ### Timer plumbing -/

/-- `clearTimeout(handle)`: remove the handle from the pending set; a no-op on
an absent (already fired or cancelled) handle. -/
def clearTimer (pend : List Nat) : Option Nat → List Nat
  | none => pend
  | some t => pend.filter (fun x => x ≠ t)

/-! ### Core operations (src/classes/GameManager.ts) -/

/-- `GameManager.endGame` (GameManager.ts:327): mark game over, cancel the
order timer, despawn and drop all world items. -/
def endGame (s : PlayerGameState) : PlayerGameState :=
  { s with
    isGameOver := true
    pendingTimers := clearTimer s.pendingTimers s.orderTimer
    worldItems := [] }

/-- `GameManager.loseLife` (GameManager.ts:299): decrement `lives`, then
either end the game (at `lives <= 0`) or reset the order progress. -/
def loseLife (s : PlayerGameState) : PlayerGameState :=
  if s.isGameOver then s
  else if s.lives - 1 ≤ 0 then endGame { s with lives := s.lives - 1 }
  else { s with lives := s.lives - 1, orderProgress := 0 }

/-- The order-completion branch at GameManager.ts:275-293: bonus score,
cancel the order timer, despawn the leftover items.  (The 2-second delayed
`startNewOrder` it schedules is a separate `GEvent.newOrder` event of the
trace, not part of this synchronous step.) -/
def completeCheck (s : PlayerGameState) : PlayerGameState :=
  if s.orderProgress = s.currentOrder.length then
    { s with
      score := s.score + SCORE_PER_ORDER
      pendingTimers := clearTimer s.pendingTimers s.orderTimer
      worldItems := [] }
  else s

/-- `GameManager.processItemCollection` (GameManager.ts:223). -/
def processItemCollection (s : PlayerGameState) (item : FoodItem) (itemCode : String) :
    PlayerGameState :=
  if item.isSpawned = false then s
  else if s.orderProgress = s.currentOrder.length then s
  else if itemCode = s.currentOrder.getD s.orderProgress "" then
    completeCheck
      { s with
        orderProgress := s.orderProgress + 1
        score := s.score + SCORE_PER_ITEM
        worldItems := s.worldItems.filter (fun i => i.id ≠ item.id) }
  else loseLife s

/-! ### Order construction (GameManager.ts:151-191)

Each call to `Math.floor(Math.random() * n)` is modelled by a draw function
applied at the loop index, reduced `% n`: every value the source can draw is a
residue and every residue is drawable. -/

/-- Order selection (GameManager.ts:152-157), applied after `orderCount` was
already incremented: the first order is the tutorial template, later ones a
random template of index `1 + draw % (|ORDERS| - 1)`. -/
def selectOrder (orderCount : Nat) (draw : Nat) : List String :=
  if orderCount = 1 then ORDERS.getD 0 []
  else ORDERS.getD (draw % (ORDERS.length - 1) + 1) []

/-- The extra random items pushed after the required ones
(GameManager.ts:170-175). -/
def buildExtras (orderLen : Nat) (extraDraw : Nat → Nat) : List String :=
  (List.range (ITEMS_PER_ORDER - orderLen)).map
    (fun i => allItemCodes.getD (extraDraw i % allItemCodes.length) "")

/-- The destructuring swap `[a[i], a[j]] = [a[j], a[i]]` (GameManager.ts:180). -/
def swapAt (l : List String) (i j : Nat) : List String :=
  (l.set i (l.getD j "")).set j (l.getD i "")

/-- The Fisher-Yates loop of GameManager.ts:178-181, running the index `i`
down to `1`; at index `i` it swaps position `i` with position
`draw i % (i+1)`. -/
def fyLoop (shufDraw : Nat → Nat) : Nat → List String → List String
  | 0, l => l
  | i + 1, l => fyLoop shufDraw i (swapAt l (i + 1) (shufDraw (i + 1) % (i + 2)))

/-- The whole shuffle of `itemsToSpawn`. -/
def fyShuffle (shufDraw : Nat → Nat) (l : List String) : List String :=
  fyLoop shufDraw (l.length - 1) l

/-- `itemsToSpawn` as built by GameManager.ts:162-181: the required codes,
then the random extras, then the in-place shuffle. -/
def buildBatch (order : List String) (extraDraw shufDraw : Nat → Nat) : List String :=
  fyShuffle shufDraw (order ++ buildExtras order.length extraDraw)

/-- `FoodItemEntity.spawn` for each batch code (GameManager.ts:184-191,
FoodItemEntity.ts:7-42): an unknown code yields `null` and is skipped, a known
code yields a fresh spawned entity. -/
def spawnAll : List String → Nat → List FoodItem × Nat
  | [], nid => ([], nid)
  | c :: cs, nid =>
    if c ∈ allItemCodes then
      ((⟨nid, c, true⟩ : FoodItem) :: (spawnAll cs (nid + 1)).1, (spawnAll cs (nid + 1)).2)
    else spawnAll cs nid

/-- The prefix of `startNewOrder` run before the player-entity query
(GameManager.ts:133-143): bump `orderCount`, despawn and drop the previous
items, clear the hint flags, cancel the previous order timer. -/
def startNewOrderPre (s : PlayerGameState) : PlayerGameState :=
  { s with
    orderCount := s.orderCount + 1
    worldItems := []
    nearbyItemsNotified := []
    pendingTimers := clearTimer s.pendingTimers s.orderTimer }

/-- Order selection and item placement (GameManager.ts:151-191). -/
def placeItems (s : PlayerGameState) (order : List String)
    (extraDraw shufDraw : Nat → Nat) : PlayerGameState :=
  { s with
    currentOrder := order
    orderProgress := 0
    worldItems := (spawnAll (buildBatch order extraDraw shufDraw) s.nextItemId).1
    nextItemId := (spawnAll (buildBatch order extraDraw shufDraw) s.nextItemId).2 }

/-- Arming the order-expiry timeout (GameManager.ts:216-220). -/
def armTimer (s : PlayerGameState) : PlayerGameState :=
  { s with
    orderTimer := some s.nextTimerId
    pendingTimers := s.pendingTimers ++ [s.nextTimerId]
    nextTimerId := s.nextTimerId + 1 }

/-- `GameManager.startNewOrder` (GameManager.ts:132-221).  `playerPresent`
models whether `getPlayerEntitiesByPlayer` returned any entity; the draw
functions model the random calls.  Note the early return on a missing player
entity happens after `startNewOrderPre` has already mutated the session. -/
def startNewOrder (s : PlayerGameState) (playerPresent : Bool) (draw : Nat)
    (extraDraw shufDraw : Nat → Nat) : PlayerGameState :=
  if playerPresent = false then startNewOrderPre s
  else
    armTimer
      (placeItems (startNewOrderPre s)
        (selectOrder (startNewOrderPre s).orderCount draw) extraDraw shufDraw)

/-! ### Collection detector (the TICK handler, GameManager.ts:33-103) -/

def horizDistSq (p i : Vec3) : ℚ := (i.x - p.x) ^ 2 + (i.z - p.z) ^ 2

def vertDist (p i : Vec3) : ℚ := |i.y - p.y|

/-- The pickup test at GameManager.ts:93: horizontal distance below the
collection radius and vertical distance below the tolerance, each on its own
(squared form of `Math.sqrt h < 5.0 && Math.abs dy < 5.0`). -/
def isCollectible (p i : Vec3) : Bool :=
  decide (horizDistSq p i < ITEM_COLLECTION_DISTANCE ^ 2) &&
    decide (vertDist p i < VERTICAL_TOLERANCE)

/-- The proximity-hint band at GameManager.ts:79: `3 < hd < 8`. -/
def inNotifyBand (p i : Vec3) : Bool :=
  decide (horizDistSq p i < 64) && decide ((9 : ℚ) < horizDistSq p i)

/-- The one-shot nearby-hint bookkeeping (GameManager.ts:79-90). -/
def notifyCheck (s : PlayerGameState) (playerPos itemPos : Vec3) (item : FoodItem) :
    PlayerGameState :=
  if inNotifyBand playerPos itemPos ∧ item.id ∉ s.nearbyItemsNotified then
    { s with nearbyItemsNotified := s.nearbyItemsNotified ++ [item.id] }
  else s

/-- One item check of the per-session TICK pass (GameManager.ts:34-101):
missing player entity and game-over guards, liveness guard, name-parse and
catalog guards, the one-shot nearby hint, then collection. -/
def tickCollect (s : PlayerGameState) (playerPresent : Bool) (playerPos : Vec3)
    (item : FoodItem) (itemPos : Vec3) : PlayerGameState :=
  if playerPresent = false then s
  else if s.isGameOver then s
  else if item ∉ s.worldItems then s
  else if item.isSpawned = false then s
  else if item.code ∉ allItemCodes then s
  else if isCollectible playerPos itemPos then
    processItemCollection
      { notifyCheck s playerPos itemPos item with
        nearbyItemsNotified :=
          (notifyCheck s playerPos itemPos item).nearbyItemsNotified.erase item.id }
      item item.code
  else notifyCheck s playerPos itemPos item

/-! ### Remaining events -/

/-- The order-expiry timeout callback armed at GameManager.ts:216-220, fired
by the host: the handle leaves the pending set, then the callback body runs
its staleness guard. -/
def fireOrderTimer (s : PlayerGameState) (t : Nat) : PlayerGameState :=
  if t ∈ s.pendingTimers then
    if s.isGameOver = false ∧ s.orderProgress < s.currentOrder.length then
      loseLife { s with pendingTimers := s.pendingTimers.erase t }
    else { s with pendingTimers := s.pendingTimers.erase t }
  else s

/-- The `/restart` chat command (src/index.ts:433-445): cancel the timer,
despawn all items, zero the session fields. -/
def restartCmd (s : PlayerGameState) : PlayerGameState :=
  { s with
    pendingTimers := clearTimer s.pendingTimers s.orderTimer
    worldItems := []
    score := 0
    lives := 3
    currentOrder := []
    orderProgress := 0
    orderCount := 0
    isGameOver := false }

/-- The events one player session processes. -/
inductive GEvent where
  | collect (playerPresent : Bool) (playerPos : Vec3) (item : FoodItem) (itemPos : Vec3)
  | timerFire (t : Nat)
  | newOrder (playerPresent : Bool) (draw : Nat) (extraDraw shufDraw : Nat → Nat)
  | restart

def step : GEvent → PlayerGameState → PlayerGameState
  | .collect pp ppos item ipos, s => tickCollect s pp ppos item ipos
  | .timerFire t, s => fireOrderTimer s t
  | .newOrder pp d ed sd, s => startNewOrder s pp d ed sd
  | .restart, s => restartCmd s

/-- The code's notion of a fulfilled order: the guard
`orderProgress === currentOrder.length` at GameManager.ts:229 and 275. -/
def orderFulfilled (s : PlayerGameState) : Bool :=
  s.orderProgress == s.currentOrder.length

/-! ### Invariants, spec-side predicates, and concrete witness states -/

/-- The lives and game-over invariant of a session. -/
def livesInv (s : PlayerGameState) : Prop :=
  (s.lives ≤ 0 → s.isGameOver = true) ∧ 0 ≤ s.lives

def wOkState : PlayerGameState :=
  { initGameState with currentOrder := ["B", "F"], worldItems := [⟨0, "B", true⟩] }

def isRestart : GEvent → Prop
  | .restart => True
  | _ => False

def collectOrTimeout : GEvent → Prop
  | .collect _ _ _ _ => True
  | .timerFire _ => True
  | _ => False

def wWrongState : PlayerGameState :=
  { initGameState with currentOrder := ["B", "F"], worldItems := [⟨2, "N", true⟩] }

/-- At most one outstanding order-expiry timer, and any outstanding one is
the session's current `orderTimer` handle. -/
def timerInv (s : PlayerGameState) : Prop :=
  s.pendingTimers.length ≤ 1 ∧ ∀ t ∈ s.pendingTimers, s.orderTimer = some t

def wTimerState : PlayerGameState :=
  { initGameState with pendingTimers := [0], orderTimer := some 0, nextTimerId := 1 }

/-- Modelled from the spec: an item is collectible when its horizontal
XZ-plane distance is below the collection radius AND its vertical distance is
below the vertical tolerance, each compared on its own (squared form over ℚ). -/
def collectibleSpec (p i : Vec3) : Prop :=
  horizDistSq p i < ITEM_COLLECTION_DISTANCE ^ 2 ∧ vertDist p i < VERTICAL_TOLERANCE

/-- Membership in a single 3D Euclidean ball of the collection radius
(squared form), the alternative reading the spec rules out. -/
def within3DRadius (p i : Vec3) : Bool :=
  decide ((i.x - p.x) ^ 2 + (i.y - p.y) ^ 2 + (i.z - p.z) ^ 2 <
    ITEM_COLLECTION_DISTANCE ^ 2)

def wC8State : PlayerGameState :=
  { initGameState with
    worldItems := [⟨0, "B", true⟩]
    orderTimer := some 0
    pendingTimers := [0]
    nextTimerId := 1 }

def wC9State : PlayerGameState :=
  { initGameState with currentOrder := ["B", "F"], worldItems := [⟨0, "N", true⟩] }

def wC9CexState : PlayerGameState :=
  { initGameState with
    currentOrder := ["B", "F"]
    orderProgress := 1
    worldItems := [⟨0, "B", true⟩] }

def eC9 : GEvent := GEvent.collect true ⟨0, 0, 0⟩ ⟨0, "B", true⟩ ⟨0, 0, 0⟩

def wC9Mid : PlayerGameState :=
  { initGameState with
    currentOrder := ["B", "F"]
    orderProgress := 0
    lives := 2
    worldItems := [⟨0, "B", true⟩] }

/-! ### Theorems -/

theorem loseLife_of_gameOver {s : PlayerGameState} (h : s.isGameOver = true) :
    loseLife s = s := by
  unfold loseLife; simp [h]

theorem loseLife_nonfatal {s : PlayerGameState} (h : s.isGameOver = false)
    (hl : 0 < s.lives - 1) :
    loseLife s = { s with lives := s.lives - 1, orderProgress := 0 } := by
  unfold loseLife
  rw [if_neg (by simp [h]), if_neg (by omega)]

theorem loseLife_fatal {s : PlayerGameState} (h : s.isGameOver = false)
    (hl : s.lives - 1 ≤ 0) :
    loseLife s = endGame { s with lives := s.lives - 1 } := by
  unfold loseLife
  rw [if_neg (by simp [h]), if_pos hl]

theorem loseLife_currentOrder (s : PlayerGameState) :
    (loseLife s).currentOrder = s.currentOrder := by
  unfold loseLife endGame; split <;> [rfl; (split <;> rfl)]

theorem loseLife_score (s : PlayerGameState) :
    (loseLife s).score = s.score := by
  unfold loseLife endGame; split <;> [rfl; (split <;> rfl)]

theorem loseLife_orderProgress (s : PlayerGameState) :
    (loseLife s).orderProgress = s.orderProgress ∨ (loseLife s).orderProgress = 0 := by
  unfold loseLife endGame; split
  · exact Or.inl rfl
  · split
    · exact Or.inl rfl
    · exact Or.inr rfl

theorem loseLife_lives {s : PlayerGameState} (h : s.isGameOver = false) :
    (loseLife s).lives = s.lives - 1 := by
  unfold loseLife endGame
  rw [if_neg (by simp [h])]
  split <;> rfl

theorem livesInv_loseLife {s : PlayerGameState} (h : livesInv s) :
    livesInv (loseLife s) := by
  obtain ⟨h1, h2⟩ := h
  by_cases hgo : s.isGameOver = true
  · rw [loseLife_of_gameOver hgo]; exact ⟨h1, h2⟩
  · simp only [Bool.not_eq_true] at hgo
    have hpos : 0 < s.lives := by
      rcases lt_or_le 0 s.lives with h | h
      · exact h
      · exact absurd (h1 h) (by simp [hgo])
    by_cases hf : s.lives - 1 ≤ 0
    · rw [loseLife_fatal hgo hf]
      exact ⟨fun _ => rfl, by simp [endGame]; omega⟩
    · rw [loseLife_nonfatal hgo (by omega)]
      exact ⟨fun hc => absurd hc (by simp; omega), by simp; omega⟩

theorem notifyCheck_eq (s : PlayerGameState) (pp ip : Vec3) (item : FoodItem) :
    ∃ nn, notifyCheck s pp ip item = { s with nearbyItemsNotified := nn } := by
  unfold notifyCheck; split
  · exact ⟨_, rfl⟩
  · exact ⟨s.nearbyItemsNotified, rfl⟩

/-- When every guard of the TICK item pass holds, the pass reduces to
`processItemCollection` on the state with updated hint flags. -/
theorem tickCollect_collects {s : PlayerGameState} {pp ip : Vec3} {item : FoodItem}
    (hgo : s.isGameOver = false) (hmem : item ∈ s.worldItems)
    (hsp : item.isSpawned = true) (hcode : item.code ∈ allItemCodes)
    (hcoll : isCollectible pp ip = true) :
    tickCollect s true pp item ip =
      processItemCollection
        { notifyCheck s pp ip item with
          nearbyItemsNotified :=
            (notifyCheck s pp ip item).nearbyItemsNotified.erase item.id }
        item item.code := by
  unfold tickCollect
  rw [if_neg (by simp), if_neg (by simp [hgo]), if_neg (by simp [hmem]),
    if_neg (by simp [hsp]), if_neg (by simp [hcode]), if_pos hcoll]

/-- C2: collecting the required item advances progress and scores. -/
theorem collect_correct_scores (s : PlayerGameState) (pp ip : Vec3) (item : FoodItem)
    (hgo : s.isGameOver = false) (hmem : item ∈ s.worldItems)
    (hsp : item.isSpawned = true) (hcode : item.code ∈ allItemCodes)
    (hcoll : isCollectible pp ip = true)
    (hk : s.orderProgress < s.currentOrder.length)
    (hreq : item.code = s.currentOrder.getD s.orderProgress "") :
    (step (GEvent.collect true pp item ip) s).orderProgress = s.orderProgress + 1 ∧
    (step (GEvent.collect true pp item ip) s).score =
      s.score + SCORE_PER_ITEM +
        (if s.orderProgress + 1 = s.currentOrder.length then SCORE_PER_ORDER else 0) := by
  simp only [step]
  rw [tickCollect_collects hgo hmem hsp hcode hcoll]
  obtain ⟨nn, hn⟩ := notifyCheck_eq s pp ip item
  rw [hn]
  unfold processItemCollection completeCheck
  rw [if_neg (by simp [hsp]), if_neg (by simp; omega), if_pos (by simpa using hreq)]
  by_cases hdone : s.orderProgress + 1 = s.currentOrder.length
  · rw [if_pos (by simpa using hdone), if_pos hdone]
    exact ⟨rfl, rfl⟩
  · rw [if_neg (by simpa using hdone), if_neg hdone]
    exact ⟨rfl, rfl⟩

/-- C3: collecting a wrong item costs exactly one life and, if lives remain,
resets the progress while leaving order and score alone. -/
theorem collect_wrong_losesLife (s : PlayerGameState) (pp ip : Vec3) (item : FoodItem)
    (hgo : s.isGameOver = false) (hmem : item ∈ s.worldItems)
    (hsp : item.isSpawned = true) (hcode : item.code ∈ allItemCodes)
    (hcoll : isCollectible pp ip = true)
    (hk : s.orderProgress < s.currentOrder.length)
    (hreq : item.code ≠ s.currentOrder.getD s.orderProgress "") :
    (step (GEvent.collect true pp item ip) s).lives = s.lives - 1 ∧
    (0 < s.lives - 1 →
      (step (GEvent.collect true pp item ip) s).orderProgress = 0 ∧
      (step (GEvent.collect true pp item ip) s).currentOrder = s.currentOrder ∧
      (step (GEvent.collect true pp item ip) s).score = s.score) := by
  simp only [step]
  rw [tickCollect_collects hgo hmem hsp hcode hcoll]
  obtain ⟨nn, hn⟩ := notifyCheck_eq s pp ip item
  rw [hn]
  unfold processItemCollection
  rw [if_neg (by simp [hsp]), if_neg (by simp; omega), if_neg (by simpa using hreq)]
  constructor
  · rw [loseLife_lives (by simpa using hgo)]
  · intro hl
    rw [loseLife_nonfatal (by simpa using hgo) (by simpa using hl)]
    exact ⟨rfl, rfl, rfl⟩

theorem completeCheck_orderProgress (s : PlayerGameState) :
    (completeCheck s).orderProgress = s.orderProgress := by
  unfold completeCheck; split <;> rfl

theorem completeCheck_currentOrder (s : PlayerGameState) :
    (completeCheck s).currentOrder = s.currentOrder := by
  unfold completeCheck; split <;> rfl

theorem completeCheck_lives (s : PlayerGameState) :
    (completeCheck s).lives = s.lives := by
  unfold completeCheck; split <;> rfl

theorem completeCheck_isGameOver (s : PlayerGameState) :
    (completeCheck s).isGameOver = s.isGameOver := by
  unfold completeCheck; split <;> rfl

theorem completeCheck_score_ge (s : PlayerGameState) :
    s.score ≤ (completeCheck s).score := by
  unfold completeCheck; split
  · exact Nat.le_add_right _ _
  · exact Nat.le_refl _

theorem processItemCollection_progress_le {s : PlayerGameState} {item : FoodItem}
    {code : String} (h : s.orderProgress ≤ s.currentOrder.length) :
    (processItemCollection s item code).orderProgress ≤
      (processItemCollection s item code).currentOrder.length := by
  unfold processItemCollection
  split
  · exact h
  · split
    · exact h
    · split
      · rw [completeCheck_orderProgress, completeCheck_currentOrder]
        simp only []
        omega
      · rcases loseLife_orderProgress s with h1 | h1 <;>
          rw [h1, loseLife_currentOrder] <;> omega

theorem loseLife_progress_le {s : PlayerGameState}
    (h : s.orderProgress ≤ s.currentOrder.length) :
    (loseLife s).orderProgress ≤ (loseLife s).currentOrder.length := by
  rcases loseLife_orderProgress s with h1 | h1 <;> rw [h1, loseLife_currentOrder] <;> omega

/-- C1: every event preserves `orderProgress ≤ |currentOrder|`, and equality
is exactly the code's order-fulfilled condition. -/
theorem progress_bounds (s : PlayerGameState) (e : GEvent)
    (h : s.orderProgress ≤ s.currentOrder.length) :
    initGameState.orderProgress ≤ initGameState.currentOrder.length ∧
    (step e s).orderProgress ≤ (step e s).currentOrder.length ∧
    ((step e s).orderProgress = (step e s).currentOrder.length ↔
      orderFulfilled (step e s) = true) := by
  refine ⟨by simp [initGameState], ?_, by simp [orderFulfilled]⟩
  cases e with
  | collect pp ppos item ipos =>
    simp only [step]
    unfold tickCollect
    obtain ⟨nn, hn⟩ := notifyCheck_eq s ppos ipos item
    split
    · exact h
    · split
      · exact h
      · split
        · exact h
        · split
          · exact h
          · split
            · exact h
            · split
              · refine processItemCollection_progress_le ?_
                rw [hn]; exact h
              · rw [hn]; exact h
  | timerFire t =>
    simp only [step]
    unfold fireOrderTimer
    split
    · split
      · exact loseLife_progress_le h
      · exact h
    · exact h
  | newOrder pp d ed sd =>
    simp only [step]
    unfold startNewOrder
    split
    · exact h
    · simp [armTimer, placeItems]
  | restart =>
    simp [step, restartCmd]

theorem progress_bounds_witness :
    initGameState.orderProgress ≤ initGameState.currentOrder.length ∧
    (step GEvent.restart wOkState).orderProgress ≤
        (step GEvent.restart wOkState).currentOrder.length ∧
    ((step GEvent.restart wOkState).orderProgress =
        (step GEvent.restart wOkState).currentOrder.length ↔
      orderFulfilled (step GEvent.restart wOkState) = true) :=
  progress_bounds wOkState GEvent.restart (by simp [wOkState, initGameState])

theorem processItemCollection_score_ge (s : PlayerGameState) (item : FoodItem)
    (code : String) : s.score ≤ (processItemCollection s item code).score := by
  unfold processItemCollection
  split
  · exact Nat.le_refl _
  · split
    · exact Nat.le_refl _
    · split
      · refine le_trans ?_ (completeCheck_score_ge _)
        simp only []
        omega
      · rw [loseLife_score]

theorem notifyCheck_score (s : PlayerGameState) (pp ip : Vec3) (item : FoodItem) :
    (notifyCheck s pp ip item).score = s.score := by
  unfold notifyCheck; split <;> rfl

/-- C10: no game event ever decreases the score; the `/restart` command is
the one operation that does, resetting it to zero. -/
theorem score_monotone (s : PlayerGameState) (e : GEvent) :
    (¬ isRestart e → s.score ≤ (step e s).score) ∧
    (step GEvent.restart s).score = 0 := by
  refine ⟨fun _ => ?_, rfl⟩
  cases e with
  | collect pp ppos item ipos =>
    simp only [step]
    unfold tickCollect
    obtain ⟨nn, hn⟩ := notifyCheck_eq s ppos ipos item
    split
    · exact Nat.le_refl _
    · split
      · exact Nat.le_refl _
      · split
        · exact Nat.le_refl _
        · split
          · exact Nat.le_refl _
          · split
            · exact Nat.le_refl _
            · split
              · refine le_trans (le_of_eq ?_) (processItemCollection_score_ge _ _ _)
                rw [hn]
              · rw [hn]
  | timerFire t =>
    simp only [step]
    unfold fireOrderTimer
    split
    · split
      · rw [loseLife_score]
      · exact Nat.le_refl _
    · exact Nat.le_refl _
  | newOrder pp d ed sd =>
    simp only [step]
    unfold startNewOrder
    split
    · exact Nat.le_refl _
    · simp [armTimer, placeItems, startNewOrderPre]
  | restart => simp [isRestart] at *

theorem score_monotone_witness :
    initGameState.score ≤ (step (GEvent.timerFire 0) initGameState).score :=
  (score_monotone initGameState (GEvent.timerFire 0)).1 (by simp [isRestart])

theorem processItemCollection_livesInv {s : PlayerGameState} {item : FoodItem}
    {code : String} (h : livesInv s) :
    livesInv (processItemCollection s item code) := by
  unfold processItemCollection
  split
  · exact h
  · split
    · exact h
    · split
      · constructor
        · rw [completeCheck_lives, completeCheck_isGameOver]
          exact h.1
        · rw [completeCheck_lives]
          exact h.2
      · exact livesInv_loseLife h

theorem tickCollect_gameOver {s : PlayerGameState} (hgo : s.isGameOver = true)
    (pp : Bool) (ppos ipos : Vec3) (item : FoodItem) :
    tickCollect s pp ppos item ipos = s := by
  unfold tickCollect
  cases pp with
  | false => rw [if_pos rfl]
  | true => rw [if_neg (by simp), if_pos (by simp [hgo])]

/-- C4: `lives ≤ 0` forces game over and lives never drop below `0`
(preserved by every event), and once the game is over a collection or timeout
event changes none of score, lives, order progress, or the spawned items. -/
theorem lives_floor_gameOver (s : PlayerGameState) (e : GEvent) (h : livesInv s) :
    livesInv initGameState ∧
    livesInv (step e s) ∧
    (s.isGameOver = true → collectOrTimeout e →
      (step e s).score = s.score ∧ (step e s).lives = s.lives ∧
      (step e s).orderProgress = s.orderProgress ∧
      (step e s).worldItems = s.worldItems) := by
  refine ⟨⟨by intro hc; simp [initGameState] at hc, by simp [initGameState]⟩, ?_, ?_⟩
  · cases e with
    | collect pp ppos item ipos =>
      simp only [step]
      unfold tickCollect
      obtain ⟨nn, hn⟩ := notifyCheck_eq s ppos ipos item
      split
      · exact h
      · split
        · exact h
        · split
          · exact h
          · split
            · exact h
            · split
              · exact h
              · split
                · refine processItemCollection_livesInv ?_
                  rw [hn]; exact h
                · rw [hn]; exact h
      | timerFire t =>
        simp only [step]
        unfold fireOrderTimer
        split
        · split
          · exact livesInv_loseLife h
          · exact h
        · exact h
      | newOrder pp d ed sd =>
        simp only [step]
        unfold startNewOrder
        split
        · exact h
        · exact h
      | restart =>
        constructor
        · intro hc
          simp [step, restartCmd] at hc
        · simp [step, restartCmd]
  · intro hgo hct
    cases e with
    | collect pp ppos item ipos =>
      simp only [step]
      rw [tickCollect_gameOver hgo]
      exact ⟨rfl, rfl, rfl, rfl⟩
    | timerFire t =>
      simp only [step]
      unfold fireOrderTimer
      split
      · rw [if_neg (by simp [hgo])]
        exact ⟨rfl, rfl, rfl, rfl⟩
      · exact ⟨rfl, rfl, rfl, rfl⟩
    | newOrder pp d ed sd => simp [collectOrTimeout] at hct
    | restart => simp [collectOrTimeout] at hct

/-- A player standing exactly on an item is within pickup range. -/
theorem isCollectible_zero : isCollectible ⟨0, 0, 0⟩ ⟨0, 0, 0⟩ = true := by
  simp only [isCollectible, horizDistSq, vertDist, ITEM_COLLECTION_DISTANCE,
    VERTICAL_TOLERANCE, Bool.and_eq_true, decide_eq_true_eq]
  norm_num

theorem collect_correct_scores_witness :
    (step (GEvent.collect true ⟨0, 0, 0⟩ ⟨0, "B", true⟩ ⟨0, 0, 0⟩) wOkState).orderProgress =
        wOkState.orderProgress + 1 ∧
    (step (GEvent.collect true ⟨0, 0, 0⟩ ⟨0, "B", true⟩ ⟨0, 0, 0⟩) wOkState).score =
      wOkState.score + SCORE_PER_ITEM +
        (if wOkState.orderProgress + 1 = wOkState.currentOrder.length then SCORE_PER_ORDER
          else 0) :=
  collect_correct_scores wOkState ⟨0, 0, 0⟩ ⟨0, 0, 0⟩ ⟨0, "B", true⟩ rfl
    (by simp [wOkState, initGameState]) rfl (by simp [allItemCodes]) isCollectible_zero
    (by simp [wOkState, initGameState]) (by simp [wOkState, initGameState])

theorem collect_wrong_losesLife_witness :
    (step (GEvent.collect true ⟨0, 0, 0⟩ ⟨2, "N", true⟩ ⟨0, 0, 0⟩) wWrongState).lives =
        wWrongState.lives - 1 ∧
    (0 < wWrongState.lives - 1 →
      (step (GEvent.collect true ⟨0, 0, 0⟩ ⟨2, "N", true⟩ ⟨0, 0, 0⟩)
          wWrongState).orderProgress = 0 ∧
      (step (GEvent.collect true ⟨0, 0, 0⟩ ⟨2, "N", true⟩ ⟨0, 0, 0⟩)
          wWrongState).currentOrder = wWrongState.currentOrder ∧
      (step (GEvent.collect true ⟨0, 0, 0⟩ ⟨2, "N", true⟩ ⟨0, 0, 0⟩) wWrongState).score =
        wWrongState.score) :=
  collect_wrong_losesLife wWrongState ⟨0, 0, 0⟩ ⟨0, 0, 0⟩ ⟨2, "N", true⟩ rfl
    (by simp [wWrongState, initGameState]) rfl (by simp [allItemCodes]) isCollectible_zero
    (by simp [wWrongState, initGameState]) (by simp [wWrongState, initGameState])

theorem lives_floor_gameOver_witness :
    livesInv initGameState ∧
    livesInv (step (GEvent.timerFire 0) initGameState) ∧
    (initGameState.isGameOver = true → collectOrTimeout (GEvent.timerFire 0) →
      (step (GEvent.timerFire 0) initGameState).score = initGameState.score ∧
      (step (GEvent.timerFire 0) initGameState).lives = initGameState.lives ∧
      (step (GEvent.timerFire 0) initGameState).orderProgress =
        initGameState.orderProgress ∧
      (step (GEvent.timerFire 0) initGameState).worldItems = initGameState.worldItems) :=
  lives_floor_gameOver initGameState (GEvent.timerFire 0)
    ⟨by intro hc; simp [initGameState] at hc, by simp [initGameState]⟩

theorem clearTimer_of_inv {pend : List Nat} {ot : Option Nat}
    (h1 : pend.length ≤ 1) (h2 : ∀ t ∈ pend, ot = some t) :
    clearTimer pend ot = [] := by
  cases pend with
  | nil => cases ot <;> rfl
  | cons t rest =>
    cases rest with
    | nil =>
      have h3 := h2 t (by simp)
      subst h3
      simp [clearTimer]
    | cons a b => simp at h1

theorem timerInv_loseLife {s : PlayerGameState} (h : timerInv s) :
    timerInv (loseLife s) := by
  unfold loseLife endGame
  split
  · exact h
  · split
    · refine ⟨?_, ?_⟩
      · rw [clearTimer_of_inv h.1 h.2]; simp
      · rw [clearTimer_of_inv h.1 h.2]; simp
    · exact h

theorem timerInv_completeCheck {s : PlayerGameState} (h : timerInv s) :
    timerInv (completeCheck s) := by
  unfold completeCheck
  split
  · refine ⟨?_, ?_⟩
    · rw [clearTimer_of_inv h.1 h.2]; simp
    · rw [clearTimer_of_inv h.1 h.2]; simp
  · exact h

theorem timerInv_processItemCollection {s : PlayerGameState} {item : FoodItem}
    {code : String} (h : timerInv s) :
    timerInv (processItemCollection s item code) := by
  unfold processItemCollection
  split
  · exact h
  · split
    · exact h
    · split
      · exact timerInv_completeCheck h
      · exact timerInv_loseLife h

/-- C5: every event preserves the at-most-one-timer invariant, and firing a
cancelled or already-fired (non-pending) timer handle is a strict no-op, so a
superseded order timer can never cause a duplicate life loss. -/
theorem single_timer (s : PlayerGameState) (e : GEvent) (h : timerInv s) :
    timerInv initGameState ∧
    timerInv (step e s) ∧
    (∀ t, t ∉ s.pendingTimers → step (GEvent.timerFire t) s = s) := by
  refine ⟨⟨by simp [initGameState], by simp [initGameState]⟩, ?_, ?_⟩
  · cases e with
    | collect pp ppos item ipos =>
      simp only [step]
      unfold tickCollect
      obtain ⟨nn, hn⟩ := notifyCheck_eq s ppos ipos item
      split
      · exact h
      · split
        · exact h
        · split
          · exact h
          · split
            · exact h
            · split
              · exact h
              · split
                · refine timerInv_processItemCollection ?_
                  rw [hn]; exact h.imp id id
                · rw [hn]; exact h.imp id id
    | timerFire t =>
      simp only [step]
      unfold fireOrderTimer
      split
      · have herase : (s.pendingTimers.erase t).length ≤ 1 :=
          le_trans (List.Sublist.length_le (s.pendingTimers.erase_sublist t)) h.1
        have hmem : ∀ u ∈ s.pendingTimers.erase t, s.orderTimer = some u :=
          fun u hu => h.2 u (List.mem_of_mem_erase hu)
        split
        · exact timerInv_loseLife ⟨herase, hmem⟩
        · exact ⟨herase, hmem⟩
      · exact h
    | newOrder pp d ed sd =>
      simp only [step]
      unfold startNewOrder
      split
      · refine ⟨?_, ?_⟩
        · simp [startNewOrderPre, clearTimer_of_inv h.1 h.2]
        · simp [startNewOrderPre, clearTimer_of_inv h.1 h.2]
      · refine ⟨?_, ?_⟩
        · simp [armTimer, placeItems, startNewOrderPre, clearTimer_of_inv h.1 h.2]
        · simp [armTimer, placeItems, startNewOrderPre, clearTimer_of_inv h.1 h.2]
    | restart =>
      refine ⟨?_, ?_⟩
      · simp [step, restartCmd, clearTimer_of_inv h.1 h.2]
      · simp [step, restartCmd, clearTimer_of_inv h.1 h.2]
  · intro t ht
    simp only [step]
    unfold fireOrderTimer
    rw [if_neg ht]

theorem single_timer_witness :
    timerInv initGameState ∧
    timerInv (step (GEvent.newOrder true 0 (fun _ => 0) (fun _ => 0)) wTimerState) ∧
    (∀ t, t ∉ wTimerState.pendingTimers →
      step (GEvent.timerFire t) wTimerState = wTimerState) :=
  single_timer wTimerState (GEvent.newOrder true 0 (fun _ => 0) (fun _ => 0))
    ⟨by simp [wTimerState, initGameState], by simp [wTimerState, initGameState]⟩

/-- C7: the TICK pickup test agrees with the independent-axes rule for all
positions, and is not the single 3D Euclidean-ball test: at player (0,0,0)
and item (4,4,0) the code collects although the 3D distance exceeds the
radius. -/
theorem collection_test_independent_axes :
    (∀ p i : Vec3, isCollectible p i = true ↔ collectibleSpec p i) ∧
    ¬ (∀ p i : Vec3, isCollectible p i = within3DRadius p i) := by
  constructor
  · intro p i
    simp [isCollectible, collectibleSpec]
  · intro hcon
    have h := hcon ⟨0, 0, 0⟩ ⟨4, 4, 0⟩
    have h1 : isCollectible ⟨0, 0, 0⟩ ⟨4, 4, 0⟩ = true := by
      simp only [isCollectible, horizDistSq, vertDist, ITEM_COLLECTION_DISTANCE,
        VERTICAL_TOLERANCE, Bool.and_eq_true, decide_eq_true_eq]
      norm_num
    have h2 : within3DRadius ⟨0, 0, 0⟩ ⟨4, 4, 0⟩ = false := by
      simp only [within3DRadius, ITEM_COLLECTION_DISTANCE, decide_eq_false_iff_not, not_lt]
      norm_num
    rw [h1, h2] at h
    exact Bool.noConfusion h

/-- C8 counterexample: when the player-entity query returns no entity,
`startNewOrder` does NOT leave the session state unchanged: it has already
incremented `orderCount`, cleared the world items, and cancelled the pending
order timer before its early return. -/
theorem startNewOrder_missing_player_mutates :
    (step (GEvent.newOrder false 0 (fun _ => 0) (fun _ => 0)) wC8State).orderCount =
        wC8State.orderCount + 1 ∧
    (step (GEvent.newOrder false 0 (fun _ => 0) (fun _ => 0)) wC8State).worldItems = [] ∧
    wC8State.worldItems ≠ [] ∧
    (step (GEvent.newOrder false 0 (fun _ => 0) (fun _ => 0)) wC8State).pendingTimers =
        [] ∧
    wC8State.pendingTimers ≠ [] := by
  refine ⟨rfl, rfl, by simp [wC8State], ?_, by simp [wC8State]⟩
  simp [step, startNewOrder, startNewOrderPre, wC8State, initGameState, clearTimer]

/-- C8 amended: on a missing player entity the TICK pass leaves the session
untouched and `startNewOrder` returns early without selecting an order,
spawning items, or arming a timer — but only after it has already bumped
`orderCount`, despawned the previous items, cleared the hint flags, and
cancelled the previous order timer; neither operation throws. -/
theorem missing_player_skip (s : PlayerGameState) (ppos ipos : Vec3) (item : FoodItem)
    (d : Nat) (ed sd : Nat → Nat) :
    step (GEvent.collect false ppos item ipos) s = s ∧
    step (GEvent.newOrder false d ed sd) s = startNewOrderPre s ∧
    (startNewOrderPre s).orderCount = s.orderCount + 1 ∧
    (startNewOrderPre s).worldItems = [] ∧
    (startNewOrderPre s).nearbyItemsNotified = [] ∧
    (startNewOrderPre s).pendingTimers = clearTimer s.pendingTimers s.orderTimer ∧
    (startNewOrderPre s).score = s.score ∧
    (startNewOrderPre s).lives = s.lives ∧
    (startNewOrderPre s).currentOrder = s.currentOrder ∧
    (startNewOrderPre s).orderProgress = s.orderProgress ∧
    (startNewOrderPre s).isGameOver = s.isGameOver ∧
    (startNewOrderPre s).orderTimer = s.orderTimer := by
  refine ⟨?_, rfl, rfl, rfl, rfl, rfl, rfl, rfl, rfl, rfl, rfl, rfl⟩
  simp [step, tickCollect]

theorem swap_head_perm :
    ∀ (t : List String) (m : Nat) (x : String), m < t.length →
      (t.getD m "" :: t.set m x).Perm (x :: t)
  | [], m, x, hm => by simp at hm
  | y :: u, 0, x, _ => List.Perm.swap x y u
  | y :: u, m + 1, x, hm => by
    have hm2 : m < u.length := by simpa using hm
    show ((u.getD m "" :: y :: u.set m x)).Perm (x :: y :: u)
    exact (List.Perm.swap y (u.getD m "") (u.set m x)).trans
      (((swap_head_perm u m x hm2).cons y).trans (List.Perm.swap x y u))

theorem swapAt_perm :
    ∀ (l : List String) (i j : Nat), i < l.length → j < l.length →
      (swapAt l i j).Perm l
  | [], i, j, hi, _ => by simp at hi
  | x :: t, 0, 0, _, _ => by
    unfold swapAt
    exact List.Perm.refl _
  | x :: t, 0, k + 1, _, hj => by
    have hk : k < t.length := by simpa using hj
    unfold swapAt
    show ((t.getD k "" :: t).set (k + 1) x).Perm (x :: t)
    show (t.getD k "" :: t.set k x).Perm (x :: t)
    exact swap_head_perm t k x hk
  | x :: t, m + 1, 0, hi, _ => by
    have hm : m < t.length := by simpa using hi
    unfold swapAt
    show (t.getD m "" :: t.set m x).Perm (x :: t)
    exact swap_head_perm t m x hm
  | x :: t, m + 1, k + 1, hi, hj => by
    have hm : m < t.length := by simpa using hi
    have hk : k < t.length := by simpa using hj
    unfold swapAt
    show (x :: ((t.set m (t.getD k "")).set k (t.getD m ""))).Perm (x :: t)
    exact (swapAt_perm t m k hm hk).cons x

theorem swapAt_length (l : List String) (i j : Nat) :
    (swapAt l i j).length = l.length := by
  unfold swapAt
  rw [List.length_set, List.length_set]

theorem fyLoop_perm (shufDraw : Nat → Nat) :
    ∀ (i : Nat) (l : List String), i < l.length → (fyLoop shufDraw i l).Perm l
  | 0, l, _ => List.Perm.refl l
  | i + 1, l, hi => by
    unfold fyLoop
    have hj : shufDraw (i + 1) % (i + 2) < l.length :=
      lt_of_lt_of_le (Nat.mod_lt _ (by omega)) (by omega)
    have hlen : i < (swapAt l (i + 1) (shufDraw (i + 1) % (i + 2))).length := by
      rw [swapAt_length]; omega
    exact (fyLoop_perm shufDraw i _ hlen).trans
      (swapAt_perm l (i + 1) (shufDraw (i + 1) % (i + 2)) hi hj)

theorem fyShuffle_perm (shufDraw : Nat → Nat) (l : List String) :
    (fyShuffle shufDraw l).Perm l := by
  unfold fyShuffle
  cases l with
  | nil => exact List.Perm.refl _
  | cons x t => exact fyLoop_perm shufDraw _ _ (by simp)

theorem buildExtras_length (orderLen : Nat) (extraDraw : Nat → Nat) :
    (buildExtras orderLen extraDraw).length = ITEMS_PER_ORDER - orderLen := by
  unfold buildExtras
  rw [List.length_map, List.length_range]

theorem buildExtras_mem (orderLen : Nat) (extraDraw : Nat → Nat) :
    ∀ c ∈ buildExtras orderLen extraDraw, c ∈ allItemCodes := by
  intro c hc
  unfold buildExtras at hc
  obtain ⟨i, _, rfl⟩ := List.mem_map.mp hc
  have h : extraDraw i % allItemCodes.length < allItemCodes.length :=
    Nat.mod_lt _ (by simp [allItemCodes])
  rw [List.getD_eq_getElem allItemCodes "" h]
  exact List.getElem_mem h

/-- C6: the placement batch is a permutation of the required codes plus
exactly `ITEMS_PER_ORDER - |order|` catalog codes, hence has length
`ITEMS_PER_ORDER` and contains every required code with at least its
multiplicity in the order. -/
theorem batch_solvable (order : List String) (extraDraw shufDraw : Nat → Nat)
    (h : order.length ≤ ITEMS_PER_ORDER) :
    (buildBatch order extraDraw shufDraw).Perm
        (order ++ buildExtras order.length extraDraw) ∧
    (buildExtras order.length extraDraw).length = ITEMS_PER_ORDER - order.length ∧
    (∀ c ∈ buildExtras order.length extraDraw, c ∈ allItemCodes) ∧
    (buildBatch order extraDraw shufDraw).length = ITEMS_PER_ORDER ∧
    (∀ c, order.count c ≤ (buildBatch order extraDraw shufDraw).count c) := by
  have hperm : (buildBatch order extraDraw shufDraw).Perm
      (order ++ buildExtras order.length extraDraw) := fyShuffle_perm _ _
  refine ⟨hperm, buildExtras_length _ _, buildExtras_mem _ _, ?_, ?_⟩
  · rw [hperm.length_eq, List.length_append, buildExtras_length]
    omega
  · intro c
    rw [hperm.count_eq, List.count_append]
    exact Nat.le_add_right _ _

theorem batch_solvable_witness :
    (buildBatch ["B", "F"] (fun _ => 0) (fun _ => 0)).Perm
        (["B", "F"] ++ buildExtras (["B", "F"] : List String).length (fun _ => 0)) ∧
    (buildExtras (["B", "F"] : List String).length (fun _ => 0)).length =
      ITEMS_PER_ORDER - (["B", "F"] : List String).length ∧
    (∀ c ∈ buildExtras (["B", "F"] : List String).length (fun _ => 0),
      c ∈ allItemCodes) ∧
    (buildBatch ["B", "F"] (fun _ => 0) (fun _ => 0)).length = ITEMS_PER_ORDER ∧
    (∀ c, (["B", "F"] : List String).count c ≤
      (buildBatch ["B", "F"] (fun _ => 0) (fun _ => 0)).count c) :=
  batch_solvable ["B", "F"] (fun _ => 0) (fun _ => 0) (by simp [ITEMS_PER_ORDER])

theorem inNotifyBand_zero : inNotifyBand ⟨0, 0, 0⟩ ⟨0, 0, 0⟩ = false := by
  simp only [inNotifyBand, horizDistSq, Bool.and_eq_false_iff, decide_eq_false_iff_not,
    not_lt]
  norm_num

/-- A single wrong-code collection with more than one life left: lives drop
by one, progress resets, and the item is neither despawned nor removed. -/
theorem wrong_step_frame (s : PlayerGameState) (pp ip : Vec3) (item : FoodItem)
    (hgo : s.isGameOver = false) (hmem : item ∈ s.worldItems)
    (hsp : item.isSpawned = true) (hcode : item.code ∈ allItemCodes)
    (hcoll : isCollectible pp ip = true)
    (hk : s.orderProgress < s.currentOrder.length)
    (hreq : item.code ≠ s.currentOrder.getD s.orderProgress "")
    (hlive : 1 < s.lives) :
    (step (GEvent.collect true pp item ip) s).lives = s.lives - 1 ∧
    (step (GEvent.collect true pp item ip) s).isGameOver = false ∧
    (step (GEvent.collect true pp item ip) s).orderProgress = 0 ∧
    (step (GEvent.collect true pp item ip) s).currentOrder = s.currentOrder ∧
    (step (GEvent.collect true pp item ip) s).score = s.score ∧
    (step (GEvent.collect true pp item ip) s).worldItems = s.worldItems := by
  simp only [step]
  rw [tickCollect_collects hgo hmem hsp hcode hcoll]
  obtain ⟨nn, hn⟩ := notifyCheck_eq s pp ip item
  rw [hn]
  unfold processItemCollection
  rw [if_neg (by simp [hsp]), if_neg (by simp; omega), if_neg (by simpa using hreq)]
  rw [loseLife_nonfatal (by simpa using hgo) (by simp; omega)]
  exact ⟨rfl, hgo, rfl, rfl, rfl, rfl⟩

/-- C9 amended: a wrong-code collection leaves the item spawned and in
`worldItems`; hence, for an item whose code differs from the currently
required code and from the order's first code, every tick in range repeats
the life loss, `n` ticks costing `n` lives while lives stay positive. -/
theorem wrong_item_retriggers (n : Nat) (s : PlayerGameState) (pp ip : Vec3)
    (item : FoodItem) (hgo : s.isGameOver = false) (hmem : item ∈ s.worldItems)
    (hsp : item.isSpawned = true) (hcode : item.code ∈ allItemCodes)
    (hcoll : isCollectible pp ip = true)
    (hlen : 0 < s.currentOrder.length)
    (hk : s.orderProgress < s.currentOrder.length)
    (hreq : item.code ≠ s.currentOrder.getD s.orderProgress "")
    (hreq0 : item.code ≠ s.currentOrder.getD 0 "")
    (hn : (n : Int) < s.lives) :
    ((step (GEvent.collect true pp item ip))^[n] s).lives = s.lives - n ∧
    ((step (GEvent.collect true pp item ip))^[n] s).isGameOver = false ∧
    item ∈ ((step (GEvent.collect true pp item ip))^[n] s).worldItems ∧
    ((step (GEvent.collect true pp item ip))^[n] s).score = s.score ∧
    ((step (GEvent.collect true pp item ip))^[n] s).currentOrder = s.currentOrder ∧
    (0 < n → ((step (GEvent.collect true pp item ip))^[n] s).orderProgress = 0) := by
  induction n generalizing s with
  | zero =>
    refine ⟨by simp, hgo, by simpa using hmem, rfl, rfl, by omega⟩
  | succ n ih =>
    have hlive : 1 < s.lives := by omega
    obtain ⟨hl1, hg1, hp1, hc1, hs1, hw1⟩ :=
      wrong_step_frame s pp ip item hgo hmem hsp hcode hcoll hk hreq hlive
    rw [Function.iterate_succ_apply]
    obtain ⟨ihl, ihg, ihm, ihs, ihc, ihp⟩ :=
      ih (step (GEvent.collect true pp item ip) s) hg1 (by rw [hw1]; exact hmem)
        (by rw [hc1]; exact hlen) (by rw [hp1, hc1]; exact hlen)
        (by rw [hp1, hc1]; exact hreq0) (by rw [hc1]; exact hreq0)
        (by rw [hl1]; push_cast at hn ⊢; omega)
    refine ⟨?_, ihg, ihm, ?_, ?_, ?_⟩
    · rw [ihl, hl1]; push_cast; ring
    · rw [ihs, hs1]
    · rw [ihc, hc1]
    · intro _
      rcases Nat.eq_zero_or_pos n with hz | hpos
      · subst hz
        simpa using hp1
      · exact ihp hpos

theorem wrong_item_retriggers_witness :
    ((step (GEvent.collect true ⟨0, 0, 0⟩ ⟨0, "N", true⟩ ⟨0, 0, 0⟩))^[2]
        wC9State).lives = wC9State.lives - 2 ∧
    ((step (GEvent.collect true ⟨0, 0, 0⟩ ⟨0, "N", true⟩ ⟨0, 0, 0⟩))^[2]
        wC9State).isGameOver = false ∧
    (⟨0, "N", true⟩ : FoodItem) ∈
      ((step (GEvent.collect true ⟨0, 0, 0⟩ ⟨0, "N", true⟩ ⟨0, 0, 0⟩))^[2]
        wC9State).worldItems ∧
    ((step (GEvent.collect true ⟨0, 0, 0⟩ ⟨0, "N", true⟩ ⟨0, 0, 0⟩))^[2]
        wC9State).score = wC9State.score ∧
    ((step (GEvent.collect true ⟨0, 0, 0⟩ ⟨0, "N", true⟩ ⟨0, 0, 0⟩))^[2]
        wC9State).currentOrder = wC9State.currentOrder ∧
    (0 < 2 → ((step (GEvent.collect true ⟨0, 0, 0⟩ ⟨0, "N", true⟩ ⟨0, 0, 0⟩))^[2]
        wC9State).orderProgress = 0) :=
  wrong_item_retriggers 2 wC9State ⟨0, 0, 0⟩ ⟨0, 0, 0⟩ ⟨0, "N", true⟩ rfl
    (by simp [wC9State, initGameState]) rfl (by simp [allItemCodes]) isCollectible_zero
    (by simp [wC9State, initGameState]) (by simp [wC9State, initGameState])
    (by simp [wC9State, initGameState]) (by simp [wC9State, initGameState])
    (by simp [wC9State, initGameState])

/-- C9 counterexample: with order `[B, F]` at progress 1 and a spare `B` item
underfoot, the first tick is a wrong-code collection (a life is lost, the
item stays, lives stay positive), but the next tick on the very same item
does NOT lose another life: after the reset the item's code is the required
one, so it is collected and scored instead. -/
theorem wrong_item_not_always_retriggering :
    (step eC9 wC9CexState).lives = wC9CexState.lives - 1 ∧
    0 < (step eC9 wC9CexState).lives ∧
    (⟨0, "B", true⟩ : FoodItem) ∈ (step eC9 wC9CexState).worldItems ∧
    (step eC9 (step eC9 wC9CexState)).lives = (step eC9 wC9CexState).lives ∧
    (step eC9 (step eC9 wC9CexState)).score =
      (step eC9 wC9CexState).score + SCORE_PER_ITEM ∧
    (step eC9 (step eC9 wC9CexState)).orderProgress = 1 := by
  have h1 : step eC9 wC9CexState = wC9Mid := by
    simp [step, eC9, tickCollect, wC9CexState, wC9Mid, initGameState, isCollectible_zero,
      inNotifyBand_zero, processItemCollection, loseLife, endGame, completeCheck,
      clearTimer, allItemCodes, notifyCheck]
  have h2 : step eC9 wC9Mid =
      { wC9Mid with orderProgress := 1, score := 10, worldItems := [] } := by
    simp [step, eC9, tickCollect, wC9Mid, initGameState, isCollectible_zero,
      inNotifyBand_zero, processItemCollection, loseLife, endGame, completeCheck,
      clearTimer, allItemCodes, notifyCheck, SCORE_PER_ITEM]
  rw [h1, h2]
  refine ⟨rfl, by simp [wC9Mid, initGameState], by simp [wC9Mid, initGameState],
    rfl, rfl, rfl⟩

end McOrder
